import Mathlib

/-!
Verification of the core game-loop logic of a browser skiing game
(player steering, obstacle collision prediction and detection,
crash/recovery state, and the yeti pursuit state machine).

The embedding translates the game's per-frame update functions and the
session controller's event handlers into pure Lean functions over `ℚ`
(the source works on JS numbers; all constants involved are exact
decimals).  Timer-based side effects (`setTimeout`/`setInterval`) are
modelled as explicit pending-deadline fields consumed by dedicated
events, and the per-frame callbacks as events carrying their inputs, so
that a whole session is a fold of a step function over an event list.
-/

namespace Ski

/-! ### Constants (Game.tsx) -/

/-- Horizontal distance below which a tree collision registers. -/
def COLLISION_DISTANCE : ℚ := 0.8

/-- Forward lookahead bound for tree collision detection. -/
def COLLISION_Z_THRESHOLD : ℚ := 5

/-- Milliseconds until a crash auto-clears. -/
def CRASH_RECOVERY_TIME : ℤ := 2000

/-- Score at which the yeti appears. -/
def YETI_APPEARANCE_SCORE : ℕ := 50

/-- Milliseconds between the warning and the yeti attack. -/
def YETI_ATTACK_DELAY : ℤ := 5000

/-- Horizontal distance at which the yeti catches the player. -/
def YETI_COLLISION_DISTANCE : ℚ := 1.2

/-- Depth distance at which the yeti catches the player. -/
def YETI_Z_COLLISION_DISTANCE : ℚ := 3.0

/-- Width of the slope. -/
def slopeWidth : ℚ := 10

/-- Per-frame steering increment. -/
def moveSpeed : ℚ := 0.1

/-! ### Obstacles and the tree-collision scan -/

/-- A reported obstacle position, as passed to `updateObstaclePositions`. -/
structure Obstacle where
  x : ℚ
  z : ℚ
deriving DecidableEq, Repr

/-- The per-obstacle test of the collision scan in `updateObstaclePositions`:
the obstacle's (predicted) `z` is strictly in front of the player and within
the lookahead, and the horizontal distance to the player is below
`COLLISION_DISTANCE`. -/
def treeDanger (px : ℚ) (o : Obstacle) : Bool :=
  decide (o.z < 0 ∧ -COLLISION_Z_THRESHOLD < o.z ∧ |px - o.x| < COLLISION_DISTANCE)

/-- The collision scan: walk the reported obstacle list in order and stop at
the first obstacle passing `treeDanger` (the `for`/`break` loop). -/
def firstHit (px : ℚ) (obs : List Obstacle) : Option Obstacle :=
  obs.find? (treeDanger px)

/-- Whether the scan over a report signals a tree crash. -/
def treeCrashSignaled (px : ℚ) (obs : List Obstacle) : Bool :=
  (firstHit px obs).isSome

/-! ### Session state (Game.tsx) -/

/-- The session controller's state: the `useState` values of `Game`, the
mutable refs used by the collision engine, and explicit fields for the
in-flight timers (`recoveryAt` for the crash-recovery `setTimeout`,
`attackPending` for the delayed yeti attack). -/
structure SessionState where
  position : ℚ
  crashed : Bool
  score : ℕ
  showYeti : Bool
  showYetiWarning : Bool
  yetiAttacking : Bool
  yetiCaught : Bool
  yetiHasAppeared : Bool
  yetiSpawn : ℚ × ℚ × ℚ
  obstacles : List Obstacle
  yetiPos : Option (ℚ × ℚ)
  lastCrashTime : ℤ
  recoveryAt : Option ℤ
  attackPending : Bool
deriving DecidableEq, Repr

/-- Initial session state. -/
def initialState : SessionState :=
  { position := 0, crashed := false, score := 0, showYeti := false,
    showYetiWarning := false, yetiAttacking := false, yetiCaught := false,
    yetiHasAppeared := false, yetiSpawn := (0, 0, 0), obstacles := [],
    yetiPos := none, lastCrashTime := 0, recoveryAt := none,
    attackPending := false }

/-- `handleCrash`: unless the yeti is mid-attack, set `crashed`, zero the
score, record the crash time and schedule the recovery timeout at
`now + CRASH_RECOVERY_TIME`. -/
def handleCrash (now : ℤ) (s : SessionState) : SessionState :=
  if s.yetiAttacking then s
  else
    { s with crashed := true, score := 0, lastCrashTime := now,
             recoveryAt := some (now + CRASH_RECOVERY_TIME) }

/-- `handleYetiCatch`: terminal game over. -/
def handleYetiCatch (s : SessionState) : SessionState :=
  { s with yetiCaught := true, crashed := true }

/-- The yeti branch of the collision check in `updateObstaclePositions`. -/
def yetiCatchCheck (s : SessionState) : SessionState :=
  if s.yetiAttacking then
    match s.yetiPos with
    | some (yx, yz) =>
        if |s.position - yx| < YETI_COLLISION_DISTANCE ∧
           |(0 : ℚ) - yz| < YETI_Z_COLLISION_DISTANCE then
          handleYetiCatch s
        else s
    | none => s
  else s

/-- `updateObstaclePositions`: ignore empty reports, record the positions,
then (unless crashed, caught, or within the 500 ms post-crash grace window)
run the tree scan and the yeti check. -/
def collisionPass (now : ℤ) (positions : List Obstacle) (s : SessionState) :
    SessionState :=
  if positions.isEmpty then s
  else
    let s1 := { s with obstacles := positions }
    if s1.crashed || s1.yetiCaught then s1
    else if now - s1.lastCrashTime < 500 then s1
    else
      yetiCatchCheck
        (if treeCrashSignaled s1.position positions then handleCrash now s1 else s1)

/-- The steering arithmetic of `updatePosition`: each held key moves the
position by `moveSpeed`, clamped to the slope bounds (left-arrow moves
right toward `slopeWidth/2 - 1`, right-arrow moves left toward
`-slopeWidth/2 + 1`). -/
def steerStep (left right : Bool) (x : ℚ) : ℚ :=
  let p1 := if left then min (x + moveSpeed) (slopeWidth / 2 - 1) else x
  if right then max (p1 - moveSpeed) (-(slopeWidth / 2) + 1) else p1

/-- `updatePosition`: one animation-frame tick of the player controller.
Movement is suppressed while crashed or caught. -/
def frameStep (left right : Bool) (s : SessionState) : SessionState :=
  if s.crashed || s.yetiCaught then s
  else { s with position := steerStep left right s.position }

/-- The yeti-appearance effect: the first time the score reaches
`YETI_APPEARANCE_SCORE`, show the warning, capture the spawn position far
behind the player, latch `yetiHasAppeared` and schedule the attack. -/
def yetiTriggerCheck (s : SessionState) : SessionState :=
  if YETI_APPEARANCE_SCORE ≤ s.score ∧ s.yetiHasAppeared = false then
    { s with showYetiWarning := true, yetiSpawn := (s.position, 0, -120),
             yetiHasAppeared := true, attackPending := true }
  else s

/-- Events of the session: animation-frame ticks, the position-report
callbacks, the score interval, and the firing of the scheduled timeouts. -/
inductive GEvent where
  | frame (left right : Bool)
  | reportObstacles (now : ℤ) (positions : List Obstacle)
  | reportYeti (yx yz : ℚ)
  | scoreTick
  | recoveryFire
  | triggerCheck
  | attackFire
  | warningHide
deriving DecidableEq, Repr

/-- One step of the session controller. -/
def step (s : SessionState) (e : GEvent) : SessionState :=
  match e with
  | .frame l r => frameStep l r s
  | .reportObstacles now ps => collisionPass now ps s
  | .reportYeti yx yz => { s with yetiPos := some (yx, yz) }
  | .scoreTick =>
      if s.crashed || s.yetiCaught then s else { s with score := s.score + 1 }
  | .recoveryFire =>
      match s.recoveryAt with
      | some _ => { s with crashed := false, recoveryAt := none }
      | none => s
  | .triggerCheck => yetiTriggerCheck s
  | .attackFire =>
      if s.attackPending then
        { s with showYeti := true, yetiAttacking := true, attackPending := false }
      else s
  | .warningHide => { s with showYetiWarning := false }

/-- A session run: fold the step function over an event list. -/
def run (s : SessionState) (es : List GEvent) : SessionState :=
  es.foldl step s

/-- The recovery timeout consumed by `GEvent.recoveryFire`. -/
def recoveryFire (s : SessionState) : SessionState :=
  step s GEvent.recoveryFire

/-- Player position bound: `[-slopeWidth/2 + 1, slopeWidth/2 - 1]`. -/
def inBounds (x : ℚ) : Prop :=
  -(slopeWidth / 2) + 1 ≤ x ∧ x ≤ slopeWidth / 2 - 1

/-! ### Entity motion model (shared kinematics) -/

/-- `lerp` as defined in Slope.tsx, Skiier.tsx and Yeti.tsx. -/
def lerp (start fin t : ℚ) : ℚ :=
  start * (1 - t) + fin * t

/-- Speed of the slope scroll (ObstacleTree.tsx `SLOPE_SPEED`). -/
def SLOPE_SPEED : ℚ := 0.4

/-- Per-frame advance of the obstacle tree in
`src/components/ObstacleTree.tsx`: the raw frame delta is used, with no
clamping. -/
def treeMoveAmount (delta : ℚ) : ℚ :=
  SLOPE_SPEED * delta * 60

/-- Per-frame advance of the obstacle tree in the other iteration of the
component (the one that caps the delta at 0.05 s before use). -/
def treeMoveAmountV2 (delta : ℚ) : ℚ :=
  SLOPE_SPEED * min delta 0.05 * 60

/-- The yeti's smoothed frame delta: `Math.min(delta, 0.05)`. -/
def yetiSmoothDelta (delta : ℚ) : ℚ :=
  min delta 0.05

/-! ### Obstacle tree frame update (ObstacleTree.tsx) -/

/-- The proximity-banded prediction factor, as a function of the obstacle's
distance `|z|` to the player: minimal prediction very close, moderate at
medium distance, full prediction far away. -/
def predictionFactor (dist : ℚ) : ℚ :=
  if dist < 5 then 0.2 else if dist < 15 then 0.5 else 1

/-- One `useFrame` tick of `src/components/ObstacleTree.tsx`, restricted to
its kinematics: advance the tree by `treeMoveAmount delta`, and report a
predicted position whose `z` is the new `z` minus the advance scaled by the
prediction factor for the new distance to the player.  Returns
`(new z, reported z)`.  (The recycle-and-respawn branch taken when the new
`z` drops below `-15` redraws `x` at random and is outside this fragment.) -/
def obstacleFrame (z delta : ℚ) : ℚ × ℚ :=
  let moveAmount := treeMoveAmount delta
  let z1 := z - moveAmount
  (z1, z1 - moveAmount * predictionFactor |z1|)

/-! ### Yeti pursuit state machine (Yeti.tsx) -/

/-- The attack phases of the yeti. -/
inductive AttackPhase where
  | approach
  | chase
  | attack
deriving DecidableEq, Repr

/-- Numeric order of the phases, for monotonicity statements. -/
def phaseOrd : AttackPhase → ℕ
  | .approach => 0
  | .chase => 1
  | .attack => 2

/-- The yeti's per-frame state: position, interpolation targets, chase
speed, emergence height, animation state and phase.  `initialZ` is the
`z` of the `initialPosition` prop, referenced by the approach target. -/
structure YetiState where
  x : ℚ
  y : ℚ
  z : ℚ
  targetX : ℚ
  targetZ : ℚ
  chaseSpeed : ℚ
  visibilityHeight : ℚ
  armAngle : ℚ
  jumpHeight : ℚ
  phase : AttackPhase
  initialZ : ℚ
deriving DecidableEq, Repr

/-- Tail of the yeti frame: apply the smoothed interpolation toward the
phase's targets (X at a fixed blend, Z at the phase's chase speed), set the
height from emergence plus jump, and report the new position upward. -/
def yetiApply (s : YetiState) (tX tZ vis arm jump speed : ℚ)
    (phase : AttackPhase) (sd : ℚ) : YetiState × Option (ℚ × ℚ) :=
  let x1 := lerp s.x tX (0.05 * sd * 60)
  let z1 := lerp s.z tZ (speed * sd * 60)
  ({ x := x1, y := vis + jump, z := z1, targetX := tX, targetZ := tZ,
     chaseSpeed := speed, visibilityHeight := vis, armAngle := arm,
     jumpHeight := jump, phase := phase, initialZ := s.initialZ },
   some (x1, z1))

/-- One `useFrame` tick of Yeti.tsx.  When `attacking` is false the frame
returns immediately and nothing changes and nothing is reported.  Otherwise
the delta is smoothed, the phase switch updates targets, emergence height,
animation, chase speed and the (next-frame) phase, and the positions are
interpolated and reported.  `t` is the clock's elapsed time and `sinf`
stands for `Math.sin`. -/
def yetiFrame (attacking : Bool) (playerX delta t : ℚ) (sinf : ℚ → ℚ)
    (s : YetiState) : YetiState × Option (ℚ × ℚ) :=
  if attacking then
    let sd := yetiSmoothDelta delta
    match s.phase with
    | .approach =>
        yetiApply s (playerX + 2) (s.initialZ + 30)
          (if s.visibilityHeight < 1 then s.visibilityHeight + sd * 0.3
           else s.visibilityHeight)
          (sinf (t * 8) * 0.6) (|sinf (t * 6)| * 0.3)
          (lerp s.chaseSpeed 0.07 0.01)
          (if s.z < -40 then .chase else .approach) sd
    | .chase =>
        yetiApply s (lerp s.targetX (playerX + 1) 0.03) (-15)
          1 (sinf (t * 12) * 0.7) (|sinf (t * 9)| * 0.4)
          (lerp s.chaseSpeed 0.1 0.01)
          (if s.z < -7 then .attack else .chase) sd
    | .attack =>
        yetiApply s (lerp s.targetX playerX 0.15) 0.8
          s.visibilityHeight (sinf (t * 15) * 1) (|sinf (t * 12)| * 0.5)
          0.18 .attack sd
  else (s, none)

/-- Per-frame inputs of the yeti component. -/
structure YetiInput where
  attacking : Bool
  playerX : ℚ
  delta : ℚ
  t : ℚ
  sinf : ℚ → ℚ

/-- Run the yeti through a sequence of frames. -/
def runYeti (s : YetiState) (ins : List YetiInput) : YetiState :=
  ins.foldl (fun s i => (yetiFrame i.attacking i.playerX i.delta i.t i.sinf s).1) s

/-- A concrete yeti state (the component's state right after mounting with
the spawn position captured by the session controller). -/
def yetiStart : YetiState :=
  { x := 0, y := -1, z := -120, targetX := 0, targetZ := -120,
    chaseSpeed := 0.05, visibilityHeight := -1, armAngle := 0,
    jumpHeight := 0, phase := .approach, initialZ := -120 }

/-! ### Theorems -/

/-- Claim C1: the collision scan signals a tree crash exactly when some
reported obstacle has predicted `z` strictly in
`(-COLLISION_Z_THRESHOLD, 0)` and horizontal distance to the player
strictly below `COLLISION_DISTANCE`; with player `x = 0` and obstacle
`{x := 0, z := -1}` a crash is signaled, with player `x = 2` it is not;
and the scan stops at the first qualifying obstacle in report order. -/
theorem tree_crash_iff :
    (∀ (px : ℚ) (obs : List Obstacle),
        treeCrashSignaled px obs = true ↔
          ∃ o ∈ obs, o.z < 0 ∧ -COLLISION_Z_THRESHOLD < o.z ∧
            |px - o.x| < COLLISION_DISTANCE)
    ∧ treeCrashSignaled 0 [⟨0, -1⟩] = true
    ∧ treeCrashSignaled 2 [⟨0, -1⟩] = false
    ∧ (∀ (px : ℚ) (l1 l2 : List Obstacle) (o : Obstacle),
        (∀ o' ∈ l1, treeDanger px o' = false) → treeDanger px o = true →
        firstHit px (l1 ++ o :: l2) = some o) := by
  refine ⟨?_, ?_, ?_, ?_⟩
  · intro px obs
    simp only [treeCrashSignaled, firstHit, List.find?_isSome, treeDanger,
      decide_eq_true_eq]
  · have h : treeDanger 0 ⟨0, -1⟩ = true := by
      simp [treeDanger, COLLISION_Z_THRESHOLD, COLLISION_DISTANCE]; norm_num
    simp [treeCrashSignaled, firstHit, List.find?_cons_of_pos _ h]
  · have h : treeDanger 2 ⟨0, -1⟩ = false := by
      simp [treeDanger, COLLISION_Z_THRESHOLD, COLLISION_DISTANCE]; norm_num
    simp [treeCrashSignaled, firstHit, List.find?_cons_of_neg, h]
  · intro px l1 l2 o h1 ho
    induction l1 with
    | nil => simpa [firstHit] using List.find?_cons_of_pos l2 ho
    | cons a tl ih =>
        have ha : treeDanger px a = false := h1 a (by simp)
        have htl : ∀ o' ∈ tl, treeDanger px o' = false := fun o' h => h1 o' (by simp [h])
        simpa [firstHit, List.find?_cons_of_neg, ha] using ih htl

/-- Witness for C1: the first-match conjunct applied at player `x = 0`,
a near-miss obstacle first in the list, and the qualifying obstacle
`{x := 0, z := -1}` after it. -/
theorem tree_crash_iff_witness :
    firstHit 0 ([Obstacle.mk 3 (-1)] ++ Obstacle.mk 0 (-1) :: []) =
      some (Obstacle.mk 0 (-1)) :=
  tree_crash_iff.2.2.2 0 [⟨3, -1⟩] [] ⟨0, -1⟩
    (by
      intro o' h
      simp only [List.mem_singleton] at h
      subst h
      simp [treeDanger, COLLISION_Z_THRESHOLD, COLLISION_DISTANCE]; norm_num)
    (by simp [treeDanger, COLLISION_Z_THRESHOLD, COLLISION_DISTANCE]; norm_num)

/-- Claim C2: unless the yeti is mid-attack at the moment of the
collision, a tree collision sets `crashed`, resets the score to 0,
records the crash timestamp, and schedules the automatic clearing of
`crashed` at `CRASH_RECOVERY_TIME = 2000` ms after the crash, which
indeed clears it; when the yeti is mid-attack, the crash handler leaves
the state untouched. -/
theorem crash_recovery_spec :
    (∀ (now : ℤ) (s : SessionState), s.yetiAttacking = false →
        handleCrash now s =
          { s with crashed := true, score := 0, lastCrashTime := now,
                   recoveryAt := some (now + CRASH_RECOVERY_TIME) }
        ∧ CRASH_RECOVERY_TIME = 2000
        ∧ (recoveryFire (handleCrash now s)).crashed = false
        ∧ (recoveryFire (handleCrash now s)).recoveryAt = none)
    ∧ (∀ (now : ℤ) (s : SessionState), s.yetiAttacking = true →
        handleCrash now s = s) := by
  constructor
  · intro now s h
    refine ⟨by simp [handleCrash, h], rfl, ?_, ?_⟩ <;>
      simp [handleCrash, h, recoveryFire, step]
  · intro now s h
    simp [handleCrash, h]

lemma handleCrash_position (now : ℤ) (s : SessionState) :
    (handleCrash now s).position = s.position := by
  unfold handleCrash; split <;> rfl

/-- The yeti branch of the collision check either leaves the state alone or
(only while the yeti is attacking) applies the catch handler. -/
lemma yetiCatchCheck_shape (s : SessionState) :
    yetiCatchCheck s = s ∨
      (s.yetiAttacking = true ∧ yetiCatchCheck s = handleYetiCatch s) := by
  cases ha : s.yetiAttacking with
  | false => simp [yetiCatchCheck, ha]
  | true =>
      rcases hp : s.yetiPos with _ | ⟨yx, yz⟩
      · simp [yetiCatchCheck, ha, hp]
      · simp only [yetiCatchCheck, ha, hp, if_true]
        split_ifs with hc
        · exact Or.inr ⟨trivial, rfl⟩
        · exact Or.inl rfl

lemma yetiCatchCheck_position (s : SessionState) :
    (yetiCatchCheck s).position = s.position := by
  rcases yetiCatchCheck_shape s with h | ⟨_, h⟩ <;> rw [h]
  rfl

lemma collisionPass_position (now : ℤ) (ps : List Obstacle) (s : SessionState) :
    (collisionPass now ps s).position = s.position := by
  simp only [collisionPass]
  split_ifs <;>
    simp [yetiCatchCheck_position, handleCrash_position]

lemma steerStep_bounds (l r : Bool) (x : ℚ)
    (h1 : -(slopeWidth / 2) + 1 ≤ x) (h2 : x ≤ slopeWidth / 2 - 1) :
    -(slopeWidth / 2) + 1 ≤ steerStep l r x ∧
      steerStep l r x ≤ slopeWidth / 2 - 1 := by
  have hms : (0 : ℚ) ≤ moveSpeed := by norm_num [moveSpeed]
  have hlu : -(slopeWidth / 2) + 1 ≤ slopeWidth / 2 - 1 := by norm_num [slopeWidth]
  cases l <;> cases r <;>
      simp only [steerStep, if_true, if_false, Bool.false_eq_true] <;>
    constructor
  · exact h1
  · exact h2
  · exact le_max_right _ _
  · exact max_le (by linarith) hlu
  · exact le_min (by linarith) hlu
  · exact min_le_right _ _
  · exact le_max_right _ _
  · refine max_le ?_ hlu
    have := min_le_right (x + moveSpeed) (slopeWidth / 2 - 1)
    linarith

lemma steerStep_move (l r : Bool) (x : ℚ)
    (h1 : -(slopeWidth / 2) + 1 ≤ x) (h2 : x ≤ slopeWidth / 2 - 1) :
    |steerStep l r x - x| ≤ moveSpeed := by
  have hms : (0 : ℚ) ≤ moveSpeed := by norm_num [moveSpeed]
  rw [abs_le]
  cases l <;> cases r <;>
      simp only [steerStep, if_true, if_false, Bool.false_eq_true] <;>
    constructor
  · linarith
  · linarith
  · have := le_max_left (x - moveSpeed) (-(slopeWidth / 2) + 1)
    linarith
  · have := max_le (by linarith : x - moveSpeed ≤ x)
      (by linarith : -(slopeWidth / 2) + 1 ≤ x)
    linarith
  · have := le_min (by linarith : x ≤ x + moveSpeed) h2
    linarith
  · have := min_le_left (x + moveSpeed) (slopeWidth / 2 - 1)
    linarith
  · have ha := le_min (by linarith : x ≤ x + moveSpeed) h2
    have hb := le_max_right
      ((x + moveSpeed) ⊓ (slopeWidth / 2 - 1) - moveSpeed) (-(slopeWidth / 2) + 1)
    have hc := le_max_left
      ((x + moveSpeed) ⊓ (slopeWidth / 2 - 1) - moveSpeed) (-(slopeWidth / 2) + 1)
    linarith
  · have ha := min_le_left (x + moveSpeed) (slopeWidth / 2 - 1)
    have := max_le
      (by linarith :
        (x + moveSpeed) ⊓ (slopeWidth / 2 - 1) - moveSpeed ≤ x + moveSpeed)
      (by linarith : -(slopeWidth / 2) + 1 ≤ x + moveSpeed)
    linarith

lemma step_inBounds (s : SessionState) (e : GEvent)
    (h : inBounds s.position) : inBounds (step s e).position := by
  obtain ⟨h1, h2⟩ := h
  cases e with
  | frame l r =>
      simp only [step, frameStep]
      split_ifs with hc
      · exact ⟨h1, h2⟩
      · exact steerStep_bounds l r s.position h1 h2
  | reportObstacles now ps =>
      simp only [step]
      rw [collisionPass_position]
      exact ⟨h1, h2⟩
  | reportYeti yx yz => exact ⟨h1, h2⟩
  | scoreTick =>
      simp only [step]
      split_ifs <;> exact ⟨h1, h2⟩
  | recoveryFire =>
      simp only [step]
      rcases s.recoveryAt <;> exact ⟨h1, h2⟩
  | triggerCheck =>
      simp only [step, yetiTriggerCheck]
      split_ifs <;> exact ⟨h1, h2⟩
  | attackFire =>
      simp only [step]
      split_ifs <;> exact ⟨h1, h2⟩
  | warningHide => exact ⟨h1, h2⟩

/-- Claim C4: throughout every session run the player's `x` stays within
`[-slopeWidth/2 + 1, slopeWidth/2 - 1]`, which equals `[-4, 4]`; every
step preserves the bound; and one animation-frame tick moves `x` by at
most `moveSpeed`. -/
theorem player_x_bounded :
    ((-(slopeWidth / 2) + 1 : ℚ) = -4 ∧ (slopeWidth / 2 - 1 : ℚ) = 4)
    ∧ (∀ es : List GEvent, inBounds (run initialState es).position)
    ∧ (∀ (s : SessionState) (e : GEvent),
        inBounds s.position → inBounds (step s e).position)
    ∧ (∀ (s : SessionState) (l r : Bool), inBounds s.position →
        |(step s (GEvent.frame l r)).position - s.position| ≤ moveSpeed) := by
  refine ⟨⟨by norm_num [slopeWidth], by norm_num [slopeWidth]⟩, ?_, step_inBounds, ?_⟩
  · have key : ∀ (es : List GEvent) (s : SessionState),
        inBounds s.position → inBounds (run s es).position := by
      intro es
      induction es with
      | nil => intro s h; exact h
      | cons e tl ih =>
          intro s h
          simp only [run, List.foldl_cons]
          exact ih (step s e) (step_inBounds s e h)
    intro es
    exact key es initialState (by constructor <;> norm_num [initialState, slopeWidth])
  · intro s l r h
    simp only [step, frameStep]
    split_ifs with hc
    · simp only [sub_self, abs_zero]
      norm_num [moveSpeed]
    · exact steerStep_move l r s.position h.1 h.2

/-- Witness for C4: the bound and the per-frame displacement evaluated on
the initial state after one left-steer frame. -/
theorem player_x_bounded_witness :
    inBounds (run initialState [GEvent.frame true false]).position ∧
      inBounds (step initialState (GEvent.frame true false)).position ∧
      |(step initialState (GEvent.frame true false)).position -
          initialState.position| ≤ moveSpeed :=
  ⟨player_x_bounded.2.1 [GEvent.frame true false],
   player_x_bounded.2.2.1 initialState (GEvent.frame true false)
     (by constructor <;> norm_num [initialState, slopeWidth]),
   player_x_bounded.2.2.2 initialState true false
     (by constructor <;> norm_num [initialState, slopeWidth])⟩

/-- Witness for C2: both branches of the crash handler evaluated at
concrete states. -/
theorem crash_recovery_spec_witness :
    (handleCrash 7 initialState =
        { initialState with crashed := true, score := 0, lastCrashTime := 7,
                            recoveryAt := some (7 + CRASH_RECOVERY_TIME) })
    ∧ handleCrash 7 { initialState with yetiAttacking := true } =
        { initialState with yetiAttacking := true } :=
  ⟨(crash_recovery_spec.1 7 initialState rfl).1,
   crash_recovery_spec.2 7 { initialState with yetiAttacking := true } rfl⟩

/-- Invariant: a crash-recovery timeout is pending only while `crashed`. -/
def CrashTimerInv (s : SessionState) : Prop :=
  s.recoveryAt.isSome = true → s.crashed = true

/-- Terminal game-over shape: caught, crashed, no recovery timer. -/
def Terminal (s : SessionState) : Prop :=
  s.yetiCaught = true ∧ s.crashed = true ∧ s.recoveryAt = none

lemma handleCrash_yetiAttacking (now : ℤ) (s : SessionState) :
    (handleCrash now s).yetiAttacking = s.yetiAttacking := by
  unfold handleCrash; split <;> rfl

lemma handleCrash_yetiCaught (now : ℤ) (s : SessionState) :
    (handleCrash now s).yetiCaught = s.yetiCaught := by
  unfold handleCrash; split <;> rfl

lemma terminal_step (s : SessionState) (e : GEvent) (h : Terminal s) :
    Terminal (step s e) ∧ (step s e).score = s.score ∧
      (step s e).position = s.position := by
  obtain ⟨hc, hcr, hr⟩ := h
  cases e with
  | frame l r => simp [step, frameStep, Terminal, hc, hcr, hr]
  | reportObstacles now ps =>
      simp only [step, collisionPass]
      split_ifs with h1 h2 <;> simp_all [Terminal]
  | reportYeti yx yz => simp [step, Terminal, hc, hcr, hr]
  | scoreTick => simp [step, Terminal, hc, hcr, hr]
  | recoveryFire => simp [step, Terminal, hc, hcr, hr]
  | triggerCheck =>
      simp only [step, yetiTriggerCheck]
      split_ifs <;> simp_all [Terminal]
  | attackFire =>
      simp only [step]
      split_ifs <;> simp_all [Terminal]
  | warningHide => simp [step, Terminal, hc, hcr, hr]

lemma yetiCatchCheck_crashTimerInv (s : SessionState)
    (h : CrashTimerInv s) : CrashTimerInv (yetiCatchCheck s) := by
  rcases yetiCatchCheck_shape s with hs | ⟨_, hs⟩ <;> rw [hs]
  · exact h
  · intro _; rfl

lemma handleCrash_crashTimerInv (now : ℤ) (s : SessionState)
    (h : CrashTimerInv s) : CrashTimerInv (handleCrash now s) := by
  unfold handleCrash; split
  · exact h
  · intro _; rfl

lemma crashTimerInv_step (s : SessionState) (e : GEvent)
    (h : CrashTimerInv s) : CrashTimerInv (step s e) := by
  cases e with
  | frame l r =>
      simp only [step, frameStep]
      split_ifs <;> exact h
  | reportObstacles now ps =>
      simp only [step, collisionPass]
      split_ifs with h1 h2 h3 h4
      · exact h
      · exact h
      · exact h
      · exact yetiCatchCheck_crashTimerInv _ (handleCrash_crashTimerInv now _ h)
      · exact yetiCatchCheck_crashTimerInv _ h
  | reportYeti yx yz => exact h
  | scoreTick =>
      simp only [step]
      split_ifs <;> exact h
  | recoveryFire =>
      simp only [step]
      rcases hra : s.recoveryAt with _ | d
      · exact h
      · intro hx; simp at hx
  | triggerCheck =>
      simp only [step, yetiTriggerCheck]
      split_ifs <;> exact h
  | attackFire =>
      simp only [step]
      split_ifs <;> exact h
  | warningHide => exact h

lemma handleCrash_attacking_id (now : ℤ) (s : SessionState)
    (h : s.yetiAttacking = true) : handleCrash now s = s := by
  unfold handleCrash; rw [if_pos h]

lemma catch_step_terminal (s : SessionState) (e : GEvent)
    (hInv : CrashTimerInv s) (h0 : s.yetiCaught = false)
    (h1 : (step s e).yetiCaught = true) : Terminal (step s e) := by
  cases e with
  | reportObstacles now ps =>
      simp only [step, collisionPass] at h1 ⊢
      split_ifs at h1 ⊢ with ha hb hc hd
      · simp_all
      · simp_all
      · simp_all
      all_goals {
        first
        | (rcases yetiCatchCheck_shape
              (handleCrash now { s with obstacles := ps }) with hs | ⟨hatt, hs⟩
           <;> rw [hs] at h1 ⊢)
        | (rcases yetiCatchCheck_shape
              ({ s with obstacles := ps } : SessionState) with hs | ⟨hatt, hs⟩
           <;> rw [hs] at h1 ⊢)
        · simp_all [handleCrash_yetiCaught]
        · have hb2 : s.crashed = false ∧ s.yetiCaught = false := by
            constructor <;> simp_all
          have hra : s.recoveryAt = none := by
            rcases hr : s.recoveryAt with _ | d
            · rfl
            · have := hInv (by simp [hr])
              rw [hb2.1] at this
              exact absurd this (by simp)
          first
          | (have hid : handleCrash now { s with obstacles := ps } =
                ({ s with obstacles := ps } : SessionState) :=
              handleCrash_attacking_id now _
                (by rw [handleCrash_yetiAttacking] at hatt; exact hatt)
             rw [hid] at h1 ⊢
             exact ⟨rfl, rfl, hra⟩)
          | exact ⟨rfl, rfl, hra⟩
      }
  | frame l r =>
      exfalso
      simp only [step, frameStep] at h1
      split_ifs at h1 <;> simp_all
  | reportYeti yx yz => exfalso; simp only [step] at h1; simp_all
  | scoreTick =>
      exfalso
      simp only [step] at h1
      split_ifs at h1 <;> simp_all
  | recoveryFire =>
      exfalso
      simp only [step] at h1
      rcases hr : s.recoveryAt with _ | d <;> rw [hr] at h1 <;> simp_all
  | triggerCheck =>
      exfalso
      simp only [step, yetiTriggerCheck] at h1
      split_ifs at h1 <;> simp_all
  | attackFire =>
      exfalso
      simp only [step] at h1
      split_ifs at h1 <;> simp_all
  | warningHide => exfalso; simp only [step] at h1; simp_all

lemma terminal_run (es : List GEvent) (s : SessionState) (h : Terminal s) :
    Terminal (run s es) ∧ (run s es).score = s.score ∧
      (run s es).position = s.position := by
  induction es generalizing s with
  | nil => exact ⟨h, rfl, rfl⟩
  | cons e tl ih =>
      obtain ⟨ht, hsc, hp⟩ := terminal_step s e h
      obtain ⟨ht2, hsc2, hp2⟩ := ih (step s e) ht
      refine ⟨?_, ?_, ?_⟩ <;> simp only [run, List.foldl_cons] at *
      · exact ht2
      · rw [hsc2, hsc]
      · rw [hp2, hp]

/-- Claim C3: once the yeti catches the player the state is permanently
terminal.  `CrashTimerInv` (a pending recovery timeout implies `crashed`)
holds initially and is preserved by every step; under it, any step that
newly sets `caughtByAntagonist` produces a `Terminal` state (caught,
crashed, and no pending recovery timeout); and from a `Terminal` state
every subsequent run keeps `caughtByAntagonist` and `crashed` true — in
particular no recovery timer clears them — and never increments the
score. -/
theorem yeti_catch_terminal :
    CrashTimerInv initialState
    ∧ (∀ (s : SessionState) (e : GEvent),
        CrashTimerInv s → CrashTimerInv (step s e))
    ∧ (∀ (s : SessionState) (e : GEvent),
        CrashTimerInv s → s.yetiCaught = false →
        (step s e).yetiCaught = true → Terminal (step s e))
    ∧ (∀ (es : List GEvent) (s : SessionState), Terminal s →
        (run s es).yetiCaught = true ∧ (run s es).crashed = true ∧
          (run s es).score = s.score) := by
  refine ⟨?_, crashTimerInv_step, catch_step_terminal, ?_⟩
  · intro hx; simp [initialState] at hx
  · intro es s h
    obtain ⟨⟨h1, h2, _⟩, h4, _⟩ := terminal_run es s h
    exact ⟨h1, h2, h4⟩

/-- Witness for C3: a caught state run through a recovery firing, a score
tick, a steering frame, an obstacle report and the trigger check stays
caught and crashed with its score frozen. -/
theorem yeti_catch_terminal_witness :
    (run { initialState with yetiCaught := true, crashed := true }
        [GEvent.recoveryFire, GEvent.scoreTick, GEvent.frame true false,
         GEvent.reportObstacles 9000 [Obstacle.mk 0 (-1)],
         GEvent.triggerCheck]).yetiCaught = true ∧
    (run { initialState with yetiCaught := true, crashed := true }
        [GEvent.recoveryFire, GEvent.scoreTick, GEvent.frame true false,
         GEvent.reportObstacles 9000 [Obstacle.mk 0 (-1)],
         GEvent.triggerCheck]).crashed = true ∧
    (run { initialState with yetiCaught := true, crashed := true }
        [GEvent.recoveryFire, GEvent.scoreTick, GEvent.frame true false,
         GEvent.reportObstacles 9000 [Obstacle.mk 0 (-1)],
         GEvent.triggerCheck]).score =
      ({ initialState with yetiCaught := true, crashed := true } : SessionState).score :=
  yeti_catch_terminal.2.2.2 _ _ ⟨rfl, rfl, rfl⟩

/-- Counterexample for C5: the obstacle-tree advance of
`src/components/ObstacleTree.tsx` uses the raw frame delta, so at
`delta = 1` s the single-frame advance is `24`, exceeding
`SLOPE_SPEED * 0.05 * 60 = 1.2` — the claim that every per-frame entity
update clamps delta before computing the advance is false for that file. -/
theorem delta_clamp_counterexample :
    treeMoveAmount 1 = 24 ∧ SLOPE_SPEED * 0.05 * 60 < treeMoveAmount 1 := by
  norm_num [treeMoveAmount, SLOPE_SPEED]

/-- Claim C5 (amended): the entity updates that do smooth the delta — the
other iteration of the obstacle tree component and the yeti frame update —
cap it at `0.05` s before computing the frame-normalized amount, so the
clamped obstacle advance never exceeds `SLOPE_SPEED * 0.05 * 60` and the
smoothed delta entering the yeti's blend factors never exceeds `0.05`;
the `src/components/ObstacleTree.tsx` advance itself is unclamped. -/
theorem delta_clamped_amended :
    (∀ d : ℚ, treeMoveAmountV2 d ≤ SLOPE_SPEED * 0.05 * 60)
    ∧ (∀ d : ℚ, yetiSmoothDelta d ≤ 0.05) := by
  constructor
  · intro d
    have h := min_le_right d (0.05 : ℚ)
    simp only [treeMoveAmountV2, SLOPE_SPEED]
    nlinarith
  · intro d
    exact min_le_right _ _

/-- Claim C7: each obstacle frame reports `z' - advance * predictionFactor`
(where `z'` is the post-advance position) rather than the raw `z`; the
prediction factor is `0.2` below distance `5`, `0.5` below `15`, and `1`
otherwise; and for nonnegative delta the reported `z` never exceeds the
obstacle's true `z`. -/
theorem predicted_z_spec :
    (∀ z d : ℚ, (obstacleFrame z d).2 =
        (obstacleFrame z d).1 -
          treeMoveAmount d * predictionFactor |(obstacleFrame z d).1|)
    ∧ (∀ dist : ℚ, dist < 5 → predictionFactor dist = 0.2)
    ∧ (∀ dist : ℚ, 5 ≤ dist → dist < 15 → predictionFactor dist = 0.5)
    ∧ (∀ dist : ℚ, 15 ≤ dist → predictionFactor dist = 1)
    ∧ (∀ z d : ℚ, 0 ≤ d → (obstacleFrame z d).2 ≤ (obstacleFrame z d).1) := by
  refine ⟨fun z d => rfl, ?_, ?_, ?_, ?_⟩
  · intro dist h
    simp only [predictionFactor]
    rw [if_pos h]
  · intro dist h1 h2
    simp only [predictionFactor]
    rw [if_neg (by linarith), if_pos h2]
  · intro dist h
    simp only [predictionFactor]
    rw [if_neg (by linarith), if_neg (by linarith)]
  · intro z d hd
    simp only [obstacleFrame]
    have hm : 0 ≤ treeMoveAmount d := by
      simp only [treeMoveAmount, SLOPE_SPEED]
      nlinarith
    have hp : 0 < predictionFactor |z - treeMoveAmount d| := by
      simp only [predictionFactor]
      split_ifs <;> norm_num
    nlinarith [mul_nonneg hm hp.le]

/-- Witness for C7: the close band and the reported-below-true-z bound at
concrete inputs. -/
theorem predicted_z_spec_witness :
    predictionFactor 3 = 0.2 ∧ (obstacleFrame 10 1).2 ≤ (obstacleFrame 10 1).1 :=
  ⟨predicted_z_spec.2.1 3 (by norm_num),
   predicted_z_spec.2.2.2.2 10 1 (by norm_num)⟩

lemma handleCrash_yetiHasAppeared (now : ℤ) (s : SessionState) :
    (handleCrash now s).yetiHasAppeared = s.yetiHasAppeared := by
  unfold handleCrash; split <;> rfl

lemma yetiCatchCheck_yetiHasAppeared (s : SessionState) :
    (yetiCatchCheck s).yetiHasAppeared = s.yetiHasAppeared := by
  rcases yetiCatchCheck_shape s with h | ⟨_, h⟩ <;> rw [h]
  rfl

lemma collisionPass_yetiHasAppeared (now : ℤ) (ps : List Obstacle)
    (s : SessionState) :
    (collisionPass now ps s).yetiHasAppeared = s.yetiHasAppeared := by
  simp only [collisionPass]
  split_ifs <;>
    simp [yetiCatchCheck_yetiHasAppeared, handleCrash_yetiHasAppeared]

lemma step_yetiHasAppeared (s : SessionState) (e : GEvent)
    (h : s.yetiHasAppeared = true) : (step s e).yetiHasAppeared = true := by
  cases e with
  | frame l r =>
      simp only [step, frameStep]
      split_ifs <;> exact h
  | reportObstacles now ps =>
      simp only [step]
      rw [collisionPass_yetiHasAppeared]
      exact h
  | reportYeti yx yz => exact h
  | scoreTick =>
      simp only [step]
      split_ifs <;> exact h
  | recoveryFire =>
      simp only [step]
      rcases s.recoveryAt <;> exact h
  | triggerCheck =>
      simp only [step, yetiTriggerCheck]
      split_ifs <;> first | rfl | exact h
  | attackFire =>
      simp only [step]
      split_ifs <;> exact h
  | warningHide => exact h

/-- Claim C8: the yeti trigger fires at most once per session.  The first
time the score reaches `YETI_APPEARANCE_SCORE` with the latch clear, the
warning is shown, the spawn position `(playerX, 0, -120)` is captured, the
latch is set and the delayed attack is scheduled; with the latch set the
trigger check is a no-op; and the latch, once set, survives every
subsequent run, so later re-crossings of the threshold change nothing. -/
theorem yeti_trigger_once :
    (∀ s : SessionState,
        YETI_APPEARANCE_SCORE ≤ s.score → s.yetiHasAppeared = false →
        step s GEvent.triggerCheck =
          { s with showYetiWarning := true, yetiSpawn := (s.position, 0, -120),
                   yetiHasAppeared := true, attackPending := true })
    ∧ (∀ s : SessionState, s.yetiHasAppeared = true →
        step s GEvent.triggerCheck = s)
    ∧ (∀ (es : List GEvent) (s : SessionState), s.yetiHasAppeared = true →
        (run s es).yetiHasAppeared = true) := by
  refine ⟨?_, ?_, ?_⟩
  · intro s h1 h2
    simp only [step, yetiTriggerCheck]
    rw [if_pos ⟨h1, h2⟩]
  · intro s h
    simp [step, yetiTriggerCheck, h]
  · intro es
    induction es with
    | nil => intro s h; exact h
    | cons e tl ih =>
        intro s h
        simp only [run, List.foldl_cons]
        exact ih (step s e) (step_yetiHasAppeared s e h)

/-- Witness for C8: the trigger at score 50 sets the latch; with the latch
set it is a no-op; and the latch survives a subsequent run. -/
theorem yeti_trigger_once_witness :
    (step { initialState with score := 50 }
        GEvent.triggerCheck).yetiHasAppeared = true
    ∧ step { initialState with score := 50, yetiHasAppeared := true }
        GEvent.triggerCheck
        = { initialState with score := 50, yetiHasAppeared := true }
    ∧ (run { initialState with yetiHasAppeared := true }
        [GEvent.scoreTick, GEvent.triggerCheck]).yetiHasAppeared = true :=
  ⟨by rw [yeti_trigger_once.1 _ (by decide) rfl],
   yeti_trigger_once.2.1 _ rfl,
   yeti_trigger_once.2.2 _ _ rfl⟩

/-- Counterexample for C6: an instantiated yeti whose `attacking` prop is
false performs no position report on a frame — the frame callback returns
before `onPositionUpdate`, so the claim that the position is reported
regardless of the attacking flag is false. -/
theorem yeti_no_report_counterexample :
    (yetiFrame false 0 0 0 (fun q => q) yetiStart).2 = none := rfl

/-- Claim C6 (amended): while `attacking` is true the yeti reports its
post-update world position upward on every frame, in every phase
(collision evaluation being separately gated in the session controller);
while `attacking` is false the frame performs no report at all. -/
theorem yeti_reports_when_attacking :
    (∀ (px d t : ℚ) (sf : ℚ → ℚ) (s : YetiState),
        (yetiFrame true px d t sf s).2 =
          some ((yetiFrame true px d t sf s).1.x,
                (yetiFrame true px d t sf s).1.z))
    ∧ (∀ (px d t : ℚ) (sf : ℚ → ℚ) (s : YetiState),
        (yetiFrame false px d t sf s).2 = none) := by
  constructor
  · intro px d t sf s
    cases hp : s.phase <;> simp [yetiFrame, hp, yetiApply]
  · intro px d t sf s
    rfl

/-- Claim C10: while the `attacking` prop is false, a frame update of the
instantiated yeti is a complete no-op — position, targets, chase speed,
emergence height, animation state and phase are all left exactly as they
were, and nothing is reported — for every frame input. -/
theorem yeti_idle_frame_noop :
    ∀ (px d t : ℚ) (sf : ℚ → ℚ) (s : YetiState),
      yetiFrame false px d t sf s = (s, none) :=
  fun _ _ _ _ _ => rfl

lemma yetiFrame_phase_le (a : Bool) (px d t : ℚ) (sf : ℚ → ℚ)
    (s : YetiState) :
    phaseOrd s.phase ≤ phaseOrd (yetiFrame a px d t sf s).1.phase := by
  cases a with
  | false => exact le_refl _
  | true =>
      cases hp : s.phase <;>
        simp only [yetiFrame, hp, yetiApply, if_true] <;>
        first
        | (split_ifs <;> simp [phaseOrd])
        | simp [phaseOrd]

/-- Claim C9: the pursuit phase is monotone along every frame sequence,
and one attacking frame transitions exactly as the switch states:
`approach` moves to `chase` only when the current `z` is below `-40`,
`chase` moves to `attack` only when `z` is below `-7`, and `attack` is
terminal. -/
theorem yeti_phase_monotone :
    (∀ (ins : List YetiInput) (s : YetiState),
        phaseOrd s.phase ≤ phaseOrd (runYeti s ins).phase)
    ∧ (∀ (px d t : ℚ) (sf : ℚ → ℚ) (s : YetiState),
        (yetiFrame true px d t sf s).1.phase =
          match s.phase with
          | .approach => if s.z < -40 then .chase else .approach
          | .chase => if s.z < -7 then .attack else .chase
          | .attack => .attack) := by
  constructor
  · intro ins
    induction ins with
    | nil => intro s; exact le_refl _
    | cons i tl ih =>
        intro s
        simp only [runYeti, List.foldl_cons]
        exact le_trans
          (yetiFrame_phase_le i.attacking i.playerX i.delta i.t i.sinf s)
          (ih ((yetiFrame i.attacking i.playerX i.delta i.t i.sinf s).1))
  · intro px d t sf s
    cases hp : s.phase <;> simp [yetiFrame, hp, yetiApply]

end Ski
